import Mathlib

/-!
Shallow embedding of the page-split routines of `src/4-EduBtM_64bit/edubtm_Split.c`
(`edubtm_SplitInternal` and `edubtm_SplitLeaf`).

Pages are modelled at the entry level: a page carries its header fields, the live
slot directory (the offsets `slot[0..nSlots-1]`; C cells beyond the live count keep
stale bytes and are not part of the directory) and the list of entries in slot
order.  Offsets and entry lengths are computed exactly as the C code computes them,
branch by branch.  The half-fill constants `BI_HALF` / `BL_HALF` come from external
framework headers that are not in this repository, so the splitters take the
threshold as an explicit parameter `half`; every theorem quantifies over it.
-/

set_option autoImplicit false

namespace EduBtM

/-- NIL page number used by the storage framework for absent page links. -/
def NIL : Int := -1

/-- Modelled from the spec: `ALIGNED_LENGTH` is defined in the external header
`EduBtM_common.h`, which is not part of this repository.  The spec describes key
bytes as stored length-aligned; we model alignment as rounding up to a 4-byte
boundary (the COSMOS alignment unit).  The claims that depend on it only need
that some lengths are strictly rounded up, which holds for any unit above 1. -/
def ALIGNED_LENGTH (l : Nat) : Nat := ((l + 3) / 4) * 4

/-- Modelled from the spec: byte size of a `ShortPageID` child pointer
(4 bytes per the on-disk layout in the spec). -/
def SHORTPAGEID_SIZE : Nat := 4

/-- Modelled from the spec: byte size of the C type `Two` (2 bytes). -/
def TWO_SIZE : Nat := 2

/-- Modelled from the spec: byte size of an `ObjectID` record locator, from the
external headers.  Its exact value is irrelevant to every claim; it is only ever
added uniformly to leaf entry lengths. -/
def OBJECTID_SIZE : Nat := 8

/-- Internal item / internal entry: `{ spid, klen, kval }`.  The on-page
`btm_InternalEntry` and the in-memory `InternalItem` share this layout, which is
why the C code can `memcpy` between them. -/
structure InternalItem where
  spid : Int
  klen : Nat
  kval : List Nat
deriving DecidableEq

instance : Inhabited InternalItem := ⟨⟨0, 0, []⟩⟩

/-- Header of an internal page: page id, leftmost child pointer `p0`, live slot
count and free-space offset. -/
structure BtreeInternalHdr where
  pid : Int
  p0 : Int
  nSlots : Nat
  free : Nat
deriving DecidableEq

/-- Internal page: header, live slot directory (offsets, slot order) and the
entries in slot order. -/
structure BtreeInternal where
  hdr : BtreeInternalHdr
  slot : List Nat
  entries : List InternalItem
deriving DecidableEq

/-- Leaf item to insert: one record locator `oid`, the stored object count field,
and the key. -/
structure LeafItem where
  oid : Nat
  nObjects : Nat
  klen : Nat
  kval : List Nat
deriving DecidableEq

/-- On-page leaf entry `btm_LeafEntry`.  The split code copies a fixed
`2*sizeof(Two) + ALIGNED_LENGTH(klen) + sizeof(ObjectID)` bytes per entry, i.e.
it handles exactly one `ObjectID` per entry (EduBtM rejects duplicate keys with
`eDUPLICATEDOBJECTID_BTM`), so the model stores a single `oid`. -/
structure BtmLeafEntry where
  nObjects : Nat
  klen : Nat
  kval : List Nat
  oid : Nat
deriving DecidableEq

instance : Inhabited BtmLeafEntry := ⟨⟨0, 0, [], 0⟩⟩

/-- Header of a leaf page: page id, live slot count, free-space offset, and the
doubly linked leaf-chain fields. -/
structure BtreeLeafHdr where
  pid : Int
  nSlots : Nat
  free : Nat
  prevPage : Int
  nextPage : Int
deriving DecidableEq

/-- Leaf page: header, live slot directory and entries in slot order. -/
structure BtreeLeaf where
  hdr : BtreeLeafHdr
  slot : List Nat
  entries : List BtmLeafEntry
deriving DecidableEq

/-- State of the redistribution loop shared by both splitters: the running
occupied size `sum`, and for each output page the entries emitted so far, the
slot offsets recorded so far, and the next entry offset (`fEntryOffset` /
`nEntryOffset` in the C code). -/
structure SplitState (E : Type) where
  sum : Nat
  fEntries : List E
  fSlot : List Nat
  fOff : Nat
  nEntries : List E
  nSlot : List Nat
  nOff : Nat
deriving DecidableEq

/-- Loop state on entry: everything zero / empty. -/
def splitStart (E : Type) : SplitState E := ⟨0, [], [], 0, [], [], 0⟩

/-- Append one entry of byte length `len` to the source page side: record the
slot offset, advance the entry offset, and account `len + sizeof(Two)` into the
running occupied size (the C line `sum += entryLen + sizeof(Two)`). -/
def pushF {E : Type} (s : SplitState E) (el : E × Nat) : SplitState E :=
  { s with
    fEntries := s.fEntries ++ [el.1]
    fSlot := s.fSlot ++ [s.fOff]
    fOff := s.fOff + el.2
    sum := s.sum + el.2 + TWO_SIZE }

/-- Append one entry to the new sibling page side. -/
def pushN {E : Type} (s : SplitState E) (el : E × Nat) : SplitState E :=
  { s with
    nEntries := s.nEntries ++ [el.1]
    nSlot := s.nSlot ++ [s.nOff]
    nOff := s.nOff + el.2
    sum := s.sum + el.2 + TWO_SIZE }

/-- One iteration of the redistribution loop: while the running size is below
the half-fill threshold the entry goes to the source page, afterwards to the
sibling.  `pickF i` / `pickN i` give the entry and its byte length for loop
index `i` as computed in the source-page and sibling-page branches. -/
def splitStep {E : Type} (half : Nat) (pickF pickN : Nat → E × Nat) (i : Nat)
    (s : SplitState E) : SplitState E :=
  if s.sum < half then pushF s (pickF i) else pushN s (pickN i)

/-- The redistribution loop, `fuel` remaining iterations starting at index `i`.
The C code runs it with `i = 0` and `fuel = maxLoop = fpage->hdr.nSlots + 1`. -/
def splitLoop {E : Type} (half : Nat) (pickF pickN : Nat → E × Nat) :
    Nat → Nat → SplitState E → SplitState E
  | _, 0, s => s
  | i, fuel + 1, s => splitLoop half pickF pickN (i + 1) fuel (splitStep half pickF pickN i s)

/-- Entry and byte length selected by the source-page branch of the internal
loop at index `i` (lines 116-135): existing entries use the raw `klen`, the new
item uses `ALIGNED_LENGTH(item->klen)`. -/
def iPickF (tent : List InternalItem) (item : InternalItem) (high : Nat) (i : Nat) :
    InternalItem × Nat :=
  if i + 1 < high then
    (tent.getD i default, SHORTPAGEID_SIZE + TWO_SIZE + (tent.getD i default).klen)
  else if i + 1 = high then
    (item, SHORTPAGEID_SIZE + TWO_SIZE + ALIGNED_LENGTH item.klen)
  else
    (tent.getD (i - 1) default, SHORTPAGEID_SIZE + TWO_SIZE + (tent.getD (i - 1) default).klen)

/-- Entry and byte length selected by the sibling-page branch of the internal
loop at index `i` (lines 144-163): here the new item uses the raw `item->klen`,
unaligned — unlike the source-page branch. -/
def iPickN (tent : List InternalItem) (item : InternalItem) (high : Nat) (i : Nat) :
    InternalItem × Nat :=
  if i + 1 < high then
    (tent.getD i default, SHORTPAGEID_SIZE + TWO_SIZE + (tent.getD i default).klen)
  else if i + 1 = high then
    (item, SHORTPAGEID_SIZE + TWO_SIZE + item.klen)
  else
    (tent.getD (i - 1) default, SHORTPAGEID_SIZE + TWO_SIZE + (tent.getD (i - 1) default).klen)

/-- Leaf entry built from the given leaf item: the C code copies
`nObjects, klen, kval` from `&item->nObjects` and then appends `item->oid`. -/
def leafEntryOfItem (item : LeafItem) : BtmLeafEntry :=
  ⟨item.nObjects, item.klen, item.kval, item.oid⟩

/-- Byte length of a leaf entry as the split code computes it:
`2*sizeof(Two) + ALIGNED_LENGTH(klen) + sizeof(ObjectID)`. -/
def lEntryLen (e : BtmLeafEntry) : Nat :=
  2 * TWO_SIZE + ALIGNED_LENGTH e.klen + OBJECTID_SIZE

/-- Entry and byte length selected at index `i` of the leaf loop (lines
264-286 and 295-317; the source-page and sibling-page branches of the leaf
splitter compute identical entries and identical lengths, so one picker serves
both arguments of `splitLoop`). -/
def lPick (tent : List BtmLeafEntry) (item : LeafItem) (high : Nat) (i : Nat) :
    BtmLeafEntry × Nat :=
  if i + 1 < high then
    (tent.getD i default, lEntryLen (tent.getD i default))
  else if i + 1 = high then
    (leafEntryOfItem item, 2 * TWO_SIZE + ALIGNED_LENGTH item.klen + OBJECTID_SIZE)
  else
    (tent.getD (i - 1) default, lEntryLen (tent.getD (i - 1) default))

/-- Freshly initialized internal page (`edubtm_InitInternal`, non-root): empty,
`p0 = NIL`, free offset 0. -/
def edubtm_InitInternal (pid : Int) : BtreeInternal :=
  { hdr := { pid := pid, p0 := NIL, nSlots := 0, free := 0 }, slot := [], entries := [] }

/-- Freshly initialized leaf page (`edubtm_InitLeaf`, non-root): empty, chain
links NIL. -/
def edubtm_InitLeaf (pid : Int) : BtreeLeaf :=
  { hdr := { pid := pid, nSlots := 0, free := 0, prevPage := NIL, nextPage := NIL },
    slot := [], entries := [] }

/-- Result of an internal split: the rewritten source page, the populated
sibling, and the up-entry `ritem`. -/
structure InternalSplitOut where
  fpage : BtreeInternal
  npage : BtreeInternal
  ritem : InternalItem
deriving DecidableEq

/-- Success path of `edubtm_SplitInternal` (lines 109-183), after a sibling
with page id `newPid` has been allocated, initialized and pinned.  The loop
reads the snapshot `tpage = *fpage`, rewrites `fpage` in place and fills
`npage`; then slot 0 of the sibling provides `p0` and the returned `ritem` is a
byte copy of that first sibling entry (line 177), so `ritem.spid` is that
first entry's child pointer.  If the loop put no entry into the sibling, the C
code reads an uninitialized `npage->slot[0]`; the model returns the `default`
entry for that read. -/
def edubtm_SplitInternal (half : Nat) (newPid : Int) (fpage : BtreeInternal)
    (high : Nat) (item : InternalItem) : InternalSplitOut :=
  let tpage := fpage
  let npage0 := edubtm_InitInternal newPid
  let s := splitLoop half (iPickF tpage.entries item high) (iPickN tpage.entries item high)
    0 (fpage.hdr.nSlots + 1) (splitStart _)
  let nFirst := s.nEntries.getD 0 default
  let fpage1 : BtreeInternal :=
    { hdr := { fpage.hdr with
        nSlots := s.fEntries.length
        free := if s.fEntries.isEmpty then fpage.hdr.free else s.fOff }
      slot := s.fSlot
      entries := s.fEntries }
  let npage1 : BtreeInternal :=
    { hdr := { npage0.hdr with
        p0 := nFirst.spid
        nSlots := s.nEntries.length
        free := s.nOff }
      slot := s.nSlot
      entries := s.nEntries }
  ⟨fpage1, npage1, nFirst⟩

/-- Result of a leaf split. -/
structure LeafSplitOut where
  fpage : BtreeLeaf
  npage : BtreeLeaf
  ritem : InternalItem
deriving DecidableEq

/-- Success path of `edubtm_SplitLeaf` (lines 257-342).  After the loop, the
live counts are set; the sibling links are set to `prev = fpage.pid`,
`next = old fpage.nextPage`, and the source page then points at the sibling
(lines 328-331).  No other page is touched: the declared `mpage` / `nextPid`
variables for the old next leaf are never used in the C code.  The up-entry
takes the sibling page id and copies `klen, kval` from the sibling entry at
slot 0 (lines 333-336). -/
def edubtm_SplitLeaf (half : Nat) (newPid : Int) (fpage : BtreeLeaf)
    (high : Nat) (item : LeafItem) : LeafSplitOut :=
  let tpage := fpage
  let npage0 := edubtm_InitLeaf newPid
  let s := splitLoop half (lPick tpage.entries item high) (lPick tpage.entries item high)
    0 (fpage.hdr.nSlots + 1) (splitStart _)
  let nFirst := s.nEntries.getD 0 default
  let fpage1 : BtreeLeaf :=
    { hdr := { fpage.hdr with
        nSlots := s.fEntries.length
        free := if s.fEntries.isEmpty then fpage.hdr.free else s.fOff
        nextPage := npage0.hdr.pid }
      slot := s.fSlot
      entries := s.fEntries }
  let npage1 : BtreeLeaf :=
    { hdr := { npage0.hdr with
        nSlots := s.nEntries.length
        free := s.nOff
        prevPage := fpage.hdr.pid
        nextPage := fpage.hdr.nextPage }
      slot := s.nSlot
      entries := s.nEntries }
  let ritem : InternalItem := { spid := npage1.hdr.pid, klen := nFirst.klen, kval := nFirst.kval }
  ⟨fpage1, npage1, ritem⟩

/-- The full call of `edubtm_SplitInternal` including the external-collaborator
calls it makes first (lines 98-107): `btm_AllocPage`, `edubtm_InitInternal`,
`BfM_GetTrain`.  Each failure returns the error code unchanged (`ERR(e)`)
before the source page is touched.  The first component of the result is the
state of `fpage` when the call returns. -/
def edubtm_SplitInternalRun (allocRes : Except Int Int) (initRes : Int → Except Int Unit)
    (pinRes : Int → Except Int Unit) (half : Nat) (fpage : BtreeInternal) (high : Nat)
    (item : InternalItem) : BtreeInternal × Except Int (BtreeInternal × InternalItem) :=
  match allocRes with
  | .error e => (fpage, .error e)
  | .ok newPid =>
    match initRes newPid with
    | .error e => (fpage, .error e)
    | .ok _ =>
      match pinRes newPid with
      | .error e => (fpage, .error e)
      | .ok _ =>
        let out := edubtm_SplitInternal half newPid fpage high item
        (out.fpage, .ok (out.npage, out.ritem))

/-- The full call of `edubtm_SplitLeaf` including the external calls (lines
246-255), with the same error-passthrough structure. -/
def edubtm_SplitLeafRun (allocRes : Except Int Int) (initRes : Int → Except Int Unit)
    (pinRes : Int → Except Int Unit) (half : Nat) (fpage : BtreeLeaf) (high : Nat)
    (item : LeafItem) : BtreeLeaf × Except Int (BtreeLeaf × InternalItem) :=
  match allocRes with
  | .error e => (fpage, .error e)
  | .ok newPid =>
    match initRes newPid with
    | .error e => (fpage, .error e)
    | .ok _ =>
      match pinRes newPid with
      | .error e => (fpage, .error e)
      | .ok _ =>
        let out := edubtm_SplitLeaf half newPid fpage high item
        (out.fpage, .ok (out.npage, out.ritem))

/-- An internal split viewed on a whole page store: only the slots of the store
that the C code writes through its two page pointers (`fpage` and the pinned
sibling `npage`) change. -/
def storeSplitInternal (half : Nat) (newPid : Int) (store : Int → BtreeInternal)
    (fpid : Int) (high : Nat) (item : InternalItem) : (Int → BtreeInternal) × InternalItem :=
  let out := edubtm_SplitInternal half newPid (store fpid) high item
  (fun p => if p = fpid then out.fpage else if p = newPid then out.npage else store p,
   out.ritem)

/-- A leaf split viewed on a whole page store.  The C code writes only through
`fpage` and `npage`; in particular the old next leaf is never pinned or
written. -/
def storeSplitLeaf (half : Nat) (newPid : Int) (store : Int → BtreeLeaf)
    (fpid : Int) (high : Nat) (item : LeafItem) : (Int → BtreeLeaf) × InternalItem :=
  let out := edubtm_SplitLeaf half newPid (store fpid) high item
  (fun p => if p = fpid then out.fpage else if p = newPid then out.npage else store p,
   out.ritem)

/-- Adjacent-pair integrity of a leaf chain listed in key order: every adjacent
pair `A, B` has `A.next = B` and `B.prev = A`. -/
def chainOk (store : Int → BtreeLeaf) : List Int → Bool
  | a :: b :: rest =>
    decide ((store a).hdr.nextPage = b) && decide ((store b).hdr.prevPage = a)
      && chainOk store (b :: rest)
  | _ => true

/-- The merged sequence of the original entries with the new entry inserted at
1-based position `high`. -/
def mergedSeq {α : Type} (tent : List α) (item : α) (high : Nat) : List α :=
  tent.take (high - 1) ++ item :: tent.drop (high - 1)

/-- Indices `i, i+1, ..., i+f-1` of the remaining loop iterations. -/
def idxFrom (i : Nat) : Nat → List Nat
  | 0 => []
  | f + 1 => i :: idxFrom (i + 1) f

theorem idxFrom_length : ∀ (f i : Nat), (idxFrom i f).length = f
  | 0, _ => rfl
  | f + 1, i => by simp [idxFrom, idxFrom_length f (i + 1)]

theorem idxFrom_getElem : ∀ (f i t : Nat) (h : t < (idxFrom i f).length),
    (idxFrom i f)[t] = i + t
  | 0, i, t, h => by simp [idxFrom_length] at h
  | f + 1, i, 0, h => by simp [idxFrom]
  | f + 1, i, t + 1, h => by
      have hlt : t < (idxFrom (i + 1) f).length := by
        simp only [idxFrom_length] at h ⊢; omega
      simp only [idxFrom, List.getElem_cons_succ]
      rw [idxFrom_getElem f (i + 1) t hlt]; omega

theorem splitLoop_zero {E : Type} (half : Nat) (pF pN : Nat → E × Nat) (i : Nat)
    (s : SplitState E) : splitLoop half pF pN i 0 s = s := rfl

theorem splitLoop_succ {E : Type} (half : Nat) (pF pN : Nat → E × Nat) (i fuel : Nat)
    (s : SplitState E) :
    splitLoop half pF pN i (fuel + 1) s
      = splitLoop half pF pN (i + 1) fuel (splitStep half pF pN i s) := rfl

/-- Loop runs compose: `a + b` iterations from index `i` equal `b` iterations
from index `i + a` applied to the state after the first `a`. -/
theorem splitLoop_add {E : Type} (half : Nat) (pF pN : Nat → E × Nat) :
    ∀ (a b i : Nat) (s : SplitState E),
      splitLoop half pF pN i (a + b) s
        = splitLoop half pF pN (i + a) b (splitLoop half pF pN i a s)
  | 0, b, i, s => by simp [splitLoop_zero]
  | a + 1, b, i, s => by
      have h1 : a + 1 + b = (a + b) + 1 := by omega
      rw [h1, splitLoop_succ half pF pN i (a + b) s, splitLoop_succ half pF pN i a s,
        splitLoop_add half pF pN a b (i + 1) (splitStep half pF pN i s)]
      have h2 : i + 1 + a = i + (a + 1) := by omega
      rw [h2]

/-- Once the running size has reached the threshold it never drops back: from
such a state the loop leaves the source-page side untouched and sends every
remaining entry, in index order, to the sibling side. -/
theorem splitLoop_of_half_le {E : Type} (half : Nat) (pF pN : Nat → E × Nat) :
    ∀ (fuel i : Nat) (s : SplitState E), half ≤ s.sum →
      (splitLoop half pF pN i fuel s).fEntries = s.fEntries ∧
      (splitLoop half pF pN i fuel s).nEntries
        = s.nEntries ++ (idxFrom i fuel).map (fun t => (pN t).1)
  | 0, i, s, _ => by simp [splitLoop_zero, idxFrom]
  | fuel + 1, i, s, h => by
      have hns : ¬ s.sum < half := not_lt.mpr h
      have hstep : splitStep half pF pN i s = pushN s (pN i) := by
        simp [splitStep, hns]
      have h2 : half ≤ (pushN s (pN i)).sum := by
        simp only [pushN]; omega
      obtain ⟨ih1, ih2⟩ := splitLoop_of_half_le half pF pN fuel (i + 1) (pushN s (pN i)) h2
      constructor
      · rw [splitLoop_succ, hstep, ih1]
        rfl
      · rw [splitLoop_succ, hstep, ih2]
        simp [pushN, idxFrom, List.append_assoc]

/-- Concatenating the two output sides of the loop reproduces the processed
entries in index order, provided both branch pickers select the same entry at
every index (they do; only the recorded byte lengths may differ). -/
theorem splitLoop_concat {E : Type} (half : Nat) (pF pN : Nat → E × Nat)
    (hpe : ∀ t, (pF t).1 = (pN t).1) :
    ∀ (fuel i : Nat) (s : SplitState E), s.nEntries = [] →
      (splitLoop half pF pN i fuel s).fEntries ++ (splitLoop half pF pN i fuel s).nEntries
        = s.fEntries ++ (idxFrom i fuel).map (fun t => (pF t).1)
  | 0, i, s, h => by simp [splitLoop_zero, idxFrom, h]
  | fuel + 1, i, s, h => by
      by_cases hlt : s.sum < half
      · have hstep : splitStep half pF pN i s = pushF s (pF i) := by
          simp [splitStep, hlt]
        have ih := splitLoop_concat half pF pN hpe fuel (i + 1) (pushF s (pF i))
          (by simp [pushF, h])
        rw [splitLoop_succ, hstep, ih]
        simp [pushF, idxFrom, List.append_assoc]
      · have h2 : half ≤ s.sum := not_lt.mp hlt
        obtain ⟨e1, e2⟩ := splitLoop_of_half_le half pF pN (fuel + 1) i s h2
        rw [e1, e2, h]
        have hfun : (fun t => (pN t).1) = fun t => (pF t).1 :=
          funext fun t => (hpe t).symm
        rw [List.nil_append, hfun]

/-- The sibling-side slot directory and entry list stay the same length. -/
theorem splitLoop_nSlot_length {E : Type} (half : Nat) (pF pN : Nat → E × Nat) :
    ∀ (fuel i : Nat) (s : SplitState E), s.nSlot.length = s.nEntries.length →
      (splitLoop half pF pN i fuel s).nSlot.length
        = (splitLoop half pF pN i fuel s).nEntries.length
  | 0, i, s, h => by simpa [splitLoop_zero] using h
  | fuel + 1, i, s, h => by
      rw [splitLoop_succ]
      apply splitLoop_nSlot_length half pF pN fuel (i + 1)
      by_cases hlt : s.sum < half <;> simp [splitStep, hlt, pushF, pushN, h]

/-- Both internal branch pickers select the same entry at every index. -/
theorem iPickF_fst_eq_iPickN_fst (tent : List InternalItem) (item : InternalItem)
    (high : Nat) : ∀ t, (iPickF tent item high t).1 = (iPickN tent item high t).1 := by
  intro t
  unfold iPickF iPickN
  split_ifs <;> rfl

/-- The entry processed at loop index `t` is element `t` of the merged
sequence, for any picker with the branch shape of the C loop and any valid
`high`. -/
theorem idxFrom_map_pick {α : Type} [Inhabited α] (tent : List α) (item : α) (high : Nat)
    (pick : Nat → α)
    (hp : ∀ i, pick i = if i + 1 < high then tent.getD i default
      else if i + 1 = high then item else tent.getD (i - 1) default)
    (h1 : 1 ≤ high) (h2 : high ≤ tent.length + 1) :
    (idxFrom 0 (tent.length + 1)).map pick = mergedSeq tent item high := by
  have hlen : ((idxFrom 0 (tent.length + 1)).map pick).length = tent.length + 1 := by
    simp [idxFrom_length]
  have hlen2 : (mergedSeq tent item high).length = tent.length + 1 := by
    simp only [mergedSeq, List.length_append, List.length_take, List.length_cons,
      List.length_drop]
    omega
  apply List.ext_getElem (by omega)
  intro t ht1 ht2
  have htn : t < tent.length + 1 := by omega
  have hidx : t < (idxFrom 0 (tent.length + 1)).length := by
    simp [idxFrom_length]; omega
  rw [List.getElem_map, idxFrom_getElem _ _ _ hidx]
  simp only [Nat.zero_add]
  rw [hp t]
  have htk : (tent.take (high - 1)).length = high - 1 := by
    simp [List.length_take]; omega
  by_cases hc1 : t + 1 < high
  · have htl : t < tent.length := by omega
    have htt : t < (tent.take (high - 1)).length := by omega
    rw [if_pos hc1, List.getD_eq_getElem tent default htl]
    unfold mergedSeq
    rw [List.getElem_append_left htt, List.getElem_take]
  · by_cases hc2 : t + 1 = high
    · have hge : (tent.take (high - 1)).length ≤ t := by omega
      rw [if_neg hc1, if_pos hc2]
      unfold mergedSeq
      rw [List.getElem_append_right hge]
      have h0 : t - (tent.take (high - 1)).length = 0 := by omega
      simp only [h0, List.getElem_cons_zero]
    · have hgt : high < t + 1 := by omega
      have htl : t - 1 < tent.length := by omega
      have hge : (tent.take (high - 1)).length ≤ t := by omega
      rw [if_neg hc1, if_neg hc2, List.getD_eq_getElem tent default htl]
      unfold mergedSeq
      rw [List.getElem_append_right hge]
      have h0 : t - (tent.take (high - 1)).length = (t - high) + 1 := by omega
      have hd : t - high < (tent.drop (high - 1)).length := by
        simp [List.length_drop]; omega
      simp only [h0, List.getElem_cons_succ]
      rw [List.getElem_drop]
      congr 1
      omega

/-- The internal source-page picker has the merge shape of the C loop. -/
theorem iPickF_fst_shape (tent : List InternalItem) (item : InternalItem) (high : Nat) :
    ∀ i, (iPickF tent item high i).1
      = if i + 1 < high then tent.getD i default
        else if i + 1 = high then item else tent.getD (i - 1) default := by
  intro i
  unfold iPickF
  split_ifs <;> rfl

/-- The leaf picker has the merge shape of the C loop, with the entry built
from the given item inserted at position `high`. -/
theorem lPick_fst_shape (tent : List BtmLeafEntry) (item : LeafItem) (high : Nat) :
    ∀ i, (lPick tent item high i).1
      = if i + 1 < high then tent.getD i default
        else if i + 1 = high then leafEntryOfItem item else tent.getD (i - 1) default := by
  intro i
  unfold lPick
  split_ifs <;> rfl

/-- Loop state of the internal splitter after `m` iterations. -/
def iStateAfter (half : Nat) (tent : List InternalItem) (item : InternalItem)
    (high m : Nat) : SplitState InternalItem :=
  splitLoop half (iPickF tent item high) (iPickN tent item high) 0 m (splitStart _)

/-- Loop state of the leaf splitter after `m` iterations. -/
def lStateAfter (half : Nat) (tent : List BtmLeafEntry) (item : LeafItem)
    (high m : Nat) : SplitState BtmLeafEntry :=
  splitLoop half (lPick tent item high) (lPick tent item high) 0 m (splitStart _)

theorem edubtm_SplitInternal_fpage_entries (half : Nat) (newPid : Int)
    (fpage : BtreeInternal) (high : Nat) (item : InternalItem) :
    (edubtm_SplitInternal half newPid fpage high item).fpage.entries
      = (iStateAfter half fpage.entries item high (fpage.hdr.nSlots + 1)).fEntries := rfl

theorem edubtm_SplitInternal_npage_entries (half : Nat) (newPid : Int)
    (fpage : BtreeInternal) (high : Nat) (item : InternalItem) :
    (edubtm_SplitInternal half newPid fpage high item).npage.entries
      = (iStateAfter half fpage.entries item high (fpage.hdr.nSlots + 1)).nEntries := rfl

theorem edubtm_SplitInternal_npage_slot (half : Nat) (newPid : Int)
    (fpage : BtreeInternal) (high : Nat) (item : InternalItem) :
    (edubtm_SplitInternal half newPid fpage high item).npage.slot
      = (iStateAfter half fpage.entries item high (fpage.hdr.nSlots + 1)).nSlot := rfl

theorem edubtm_SplitLeaf_fpage_entries (half : Nat) (newPid : Int)
    (fpage : BtreeLeaf) (high : Nat) (item : LeafItem) :
    (edubtm_SplitLeaf half newPid fpage high item).fpage.entries
      = (lStateAfter half fpage.entries item high (fpage.hdr.nSlots + 1)).fEntries := rfl

theorem edubtm_SplitLeaf_npage_entries (half : Nat) (newPid : Int)
    (fpage : BtreeLeaf) (high : Nat) (item : LeafItem) :
    (edubtm_SplitLeaf half newPid fpage high item).npage.entries
      = (lStateAfter half fpage.entries item high (fpage.hdr.nSlots + 1)).nEntries := rfl

theorem edubtm_SplitLeaf_npage_slot (half : Nat) (newPid : Int)
    (fpage : BtreeLeaf) (high : Nat) (item : LeafItem) :
    (edubtm_SplitLeaf half newPid fpage high item).npage.slot
      = (lStateAfter half fpage.entries item high (fpage.hdr.nSlots + 1)).nSlot := rfl

/-- Sample internal page for the concrete evaluations: four entries with keys
10, 20, 30, 40 and child pointers 100..103, each with a 4-byte key (entry
length 10, so 12 occupied bytes per entry including its slot). -/
def pageI : BtreeInternal :=
  ⟨⟨1, 99, 4, 40⟩, [0, 10, 20, 30],
   [⟨100, 4, [10, 0, 0, 0]⟩, ⟨101, 4, [20, 0, 0, 0]⟩,
    ⟨102, 4, [30, 0, 0, 0]⟩, ⟨103, 4, [40, 0, 0, 0]⟩]⟩

/-- Sample internal item with key 25 and child pointer 250, to be inserted at
slot `high = 3` (the spec scenario in section 8). -/
def itemI : InternalItem := ⟨250, 4, [25, 0, 0, 0]⟩

/-- Sample leaf page, pid 1, four entries with keys 1..4, chained before the
leaf with pid 2. -/
def pageL : BtreeLeaf :=
  ⟨⟨1, 4, 64, NIL, 2⟩, [0, 16, 32, 48],
   [⟨1, 4, [1, 0, 0, 0], 501⟩, ⟨1, 4, [2, 0, 0, 0], 502⟩,
    ⟨1, 4, [3, 0, 0, 0], 503⟩, ⟨1, 4, [4, 0, 0, 0], 504⟩]⟩

/-- Sample leaf item with key 2.5 (encoded 2,5,0,0), inserted at `high = 3`. -/
def itemL : LeafItem := ⟨505, 1, 4, [2, 5, 0, 0]⟩

/-- The leaf following `pageL` in the chain: pid 2, prev = 1. -/
def pageL2 : BtreeLeaf := ⟨⟨2, 1, 16, 1, NIL⟩, [0], [⟨1, 4, [9, 0, 0, 0], 509⟩]⟩

/-- Sample leaf store: pid 1 holds `pageL`, pid 2 holds `pageL2`, all other
pids hold fresh empty leaves. -/
def storeL : Int → BtreeLeaf :=
  fun p => if p = 1 then pageL else if p = 2 then pageL2 else edubtm_InitLeaf p

/-- Sample internal store: pid 1 holds `pageI`, everything else fresh. -/
def storeI : Int → BtreeInternal :=
  fun p => if p = 1 then pageI else edubtm_InitInternal p

/-- Internal page whose keys are 5 bytes long, so that `ALIGNED_LENGTH` is a
strict round-up (5 -> 8); used to exhibit the unaligned entry advances. -/
def pageK5 : BtreeInternal :=
  ⟨⟨2, 99, 2, 28⟩, [0, 14], [⟨100, 5, [1, 1, 1, 1, 1]⟩, ⟨101, 5, [2, 2, 2, 2, 2]⟩]⟩

/-- Item with a 5-byte key for the alignment evaluations. -/
def itemK5 : InternalItem := ⟨250, 5, [9, 9, 9, 9, 9]⟩

/-- C1: the claim asserts that the up-entry of both splitters carries the
sibling page id in `ritem.spid`.  The leaf splitter does (line 334), but
`edubtm_SplitInternal` builds `ritem` by a byte copy of the first sibling
entry (line 177), so `ritem.spid` is that entry's child pointer, not the
sibling's page id.  Concretely: splitting `pageI` (keys 10,20,30,40) with key
25 at `high = 3` and sibling pid 77 returns `ritem.spid = 250` (the child
pointer of the inserted item, which became the sibling's slot-0 entry), while
the claim requires 77.  The key part of the claim does hold: `ritem`'s key is
the sibling's slot-0 key. -/
theorem C1_internal_upentry_spid_eval :
    (edubtm_SplitInternal 20 77 pageI 3 itemI).ritem = itemI ∧
    (edubtm_SplitInternal 20 77 pageI 3 itemI).npage.entries.getD 0 default = itemI ∧
    (edubtm_SplitInternal 20 77 pageI 3 itemI).ritem.spid = 250 ∧
    (edubtm_SplitInternal 20 77 pageI 3 itemI).npage.hdr.pid = 77 ∧
    ((250 : Int) ≠ 77) := by
  refine ⟨by decide, by decide, by decide, by decide, by decide⟩

/-- C2: the claim asserts that the first entry copied to the internal sibling
is consumed as `hdr.p0` and excluded from the stored count (`nSlots` one less
than the raw copies).  The code does set `p0` from the slot-0 entry (line 172)
but then stores `nSlots = k`, the full raw count (line 175), leaving the
consumed entry in place as a keyed entry.  Concretely: splitting `pageI` with
`itemI` at `high = 3` copies 3 raw entries to the sibling and stores
`nSlots = 3`, not 2; the two counts sum to 5 = n + 1 raw, with no exclusion. -/
theorem C2_sibling_count_eval :
    (edubtm_SplitInternal 20 77 pageI 3 itemI).npage.entries.length = 3 ∧
    (edubtm_SplitInternal 20 77 pageI 3 itemI).npage.hdr.nSlots = 3 ∧
    (edubtm_SplitInternal 20 77 pageI 3 itemI).npage.hdr.p0 = 250 ∧
    (edubtm_SplitInternal 20 77 pageI 3 itemI).fpage.hdr.nSlots = 2 ∧
    ((3 : Nat) ≠ 3 - 1) := by
  refine ⟨by decide, by decide, by decide, by decide, by decide⟩

/-- C3: for every valid split (internal or leaf) with `1 <= high <= n + 1`,
reading the source page's entries in slot order and then the sibling's entries
in slot order yields exactly the merged sequence of the n original entries
with the new entry inserted at 1-based position `high`: nothing is duplicated,
dropped or reordered. -/
theorem C3_order_preservation :
    (∀ (half : Nat) (newPid : Int) (fpage : BtreeInternal) (high : Nat)
        (item : InternalItem),
      fpage.hdr.nSlots = fpage.entries.length → 1 ≤ high →
      high ≤ fpage.entries.length + 1 →
      (edubtm_SplitInternal half newPid fpage high item).fpage.entries
        ++ (edubtm_SplitInternal half newPid fpage high item).npage.entries
        = mergedSeq fpage.entries item high) ∧
    (∀ (half : Nat) (newPid : Int) (fpage : BtreeLeaf) (high : Nat) (item : LeafItem),
      fpage.hdr.nSlots = fpage.entries.length → 1 ≤ high →
      high ≤ fpage.entries.length + 1 →
      (edubtm_SplitLeaf half newPid fpage high item).fpage.entries
        ++ (edubtm_SplitLeaf half newPid fpage high item).npage.entries
        = mergedSeq fpage.entries (leafEntryOfItem item) high) := by
  constructor
  · intro half newPid fpage high item hWF h1 h2
    rw [edubtm_SplitInternal_fpage_entries, edubtm_SplitInternal_npage_entries]
    unfold iStateAfter
    rw [splitLoop_concat half (iPickF fpage.entries item high)
      (iPickN fpage.entries item high) (iPickF_fst_eq_iPickN_fst _ _ _)
      (fpage.hdr.nSlots + 1) 0 (splitStart _) rfl]
    rw [hWF]
    have hmap := idxFrom_map_pick fpage.entries item high
      (fun t => (iPickF fpage.entries item high t).1)
      (iPickF_fst_shape fpage.entries item high) h1 h2
    rw [show (splitStart InternalItem).fEntries = [] from rfl, List.nil_append, hmap]
  · intro half newPid fpage high item hWF h1 h2
    rw [edubtm_SplitLeaf_fpage_entries, edubtm_SplitLeaf_npage_entries]
    unfold lStateAfter
    rw [splitLoop_concat half (lPick fpage.entries item high)
      (lPick fpage.entries item high) (fun _ => rfl)
      (fpage.hdr.nSlots + 1) 0 (splitStart _) rfl]
    rw [hWF]
    have hmap := idxFrom_map_pick fpage.entries (leafEntryOfItem item) high
      (fun t => (lPick fpage.entries item high t).1)
      (lPick_fst_shape fpage.entries item high) h1 h2
    rw [show (splitStart BtmLeafEntry).fEntries = [] from rfl, List.nil_append, hmap]

/-- Witness for C3 at the two spec scenarios (internal keys 10,20,30,40 with
key 25 at high 3; leaf keys 1..4 with key 2.5 at high 3). -/
theorem C3_order_preservation_witness :
    (pageI.hdr.nSlots = pageI.entries.length ∧
      (edubtm_SplitInternal 20 77 pageI 3 itemI).fpage.entries
        ++ (edubtm_SplitInternal 20 77 pageI 3 itemI).npage.entries
        = mergedSeq pageI.entries itemI 3) ∧
    (pageL.hdr.nSlots = pageL.entries.length ∧
      (edubtm_SplitLeaf 20 9 pageL 3 itemL).fpage.entries
        ++ (edubtm_SplitLeaf 20 9 pageL 3 itemL).npage.entries
        = mergedSeq pageL.entries (leafEntryOfItem itemL) 3) :=
  ⟨⟨by decide, C3_order_preservation.1 20 77 pageI 3 itemI (by decide) (by decide) (by decide)⟩,
   ⟨by decide, C3_order_preservation.2 20 9 pageL 3 itemL (by decide) (by decide) (by decide)⟩⟩

/-- C4: after every leaf split, for every input: the sibling's prev link is the
source page id, the sibling's next link is the value the source's next link had
on entry, and the source's next link is the sibling page id (lines 328-331;
these assignments run unconditionally). -/
theorem C4_leaf_chain_links (half : Nat) (newPid : Int) (fpage : BtreeLeaf)
    (high : Nat) (item : LeafItem) :
    (edubtm_SplitLeaf half newPid fpage high item).npage.hdr.prevPage = fpage.hdr.pid ∧
    (edubtm_SplitLeaf half newPid fpage high item).npage.hdr.nextPage
      = fpage.hdr.nextPage ∧
    (edubtm_SplitLeaf half newPid fpage high item).fpage.hdr.nextPage = newPid :=
  ⟨rfl, rfl, rfl⟩

/-- C5: the claim (and spec section 8) requires the whole leaf chain to stay a
valid doubly linked list, in particular that the page that was the source's
next leaf gets its prev link repointed at the new sibling.  The C code never
touches that page: the variables `mpage` and `nextPid`, declared "for
maintaining doubly linked list", are unused, so the old next leaf keeps
`prev = source`.  Concretely: the two-leaf chain 1 <-> 2 is intact before the
split of leaf 1 (sibling pid 9), but afterwards the chain 1, 9, 2 is broken:
leaf 2 still has `prevPage = 1`, not 9, even though 1.next = 9 and 9.next = 2. -/
theorem C5_chain_break_eval :
    chainOk storeL [1, 2] = true ∧
    chainOk (storeSplitLeaf 20 9 storeL 1 3 itemL).1 [1, 9, 2] = false ∧
    ((storeSplitLeaf 20 9 storeL 1 3 itemL).1 1).hdr.nextPage = 9 ∧
    ((storeSplitLeaf 20 9 storeL 1 3 itemL).1 9).hdr.nextPage = 2 ∧
    ((storeSplitLeaf 20 9 storeL 1 3 itemL).1 2).hdr.prevPage = 1 ∧
    ((1 : Int) ≠ 9) := by
  refine ⟨by decide, by decide, by decide, by decide, by decide, by decide⟩

/-- C6: each of `btm_AllocPage`, `edubtm_InitInternal` / `edubtm_InitLeaf` and
`BfM_GetTrain` failing makes the splitter return that error code unchanged
with the source page identical to its state on entry (lines 98-107 and
246-255: every external call precedes the first write to `fpage`). -/
theorem C6_error_passthrough :
    (∀ (initRes pinRes : Int → Except Int Unit) (half : Nat) (fpage : BtreeInternal)
        (high : Nat) (item : InternalItem) (e : Int),
      edubtm_SplitInternalRun (.error e) initRes pinRes half fpage high item
        = (fpage, .error e)) ∧
    (∀ (newPid : Int) (initRes pinRes : Int → Except Int Unit) (half : Nat)
        (fpage : BtreeInternal) (high : Nat) (item : InternalItem) (e : Int),
      initRes newPid = .error e →
      edubtm_SplitInternalRun (.ok newPid) initRes pinRes half fpage high item
        = (fpage, .error e)) ∧
    (∀ (newPid : Int) (initRes pinRes : Int → Except Int Unit) (half : Nat)
        (fpage : BtreeInternal) (high : Nat) (item : InternalItem) (e : Int),
      initRes newPid = .ok () → pinRes newPid = .error e →
      edubtm_SplitInternalRun (.ok newPid) initRes pinRes half fpage high item
        = (fpage, .error e)) ∧
    (∀ (initRes pinRes : Int → Except Int Unit) (half : Nat) (fpage : BtreeLeaf)
        (high : Nat) (item : LeafItem) (e : Int),
      edubtm_SplitLeafRun (.error e) initRes pinRes half fpage high item
        = (fpage, .error e)) ∧
    (∀ (newPid : Int) (initRes pinRes : Int → Except Int Unit) (half : Nat)
        (fpage : BtreeLeaf) (high : Nat) (item : LeafItem) (e : Int),
      initRes newPid = .error e →
      edubtm_SplitLeafRun (.ok newPid) initRes pinRes half fpage high item
        = (fpage, .error e)) ∧
    (∀ (newPid : Int) (initRes pinRes : Int → Except Int Unit) (half : Nat)
        (fpage : BtreeLeaf) (high : Nat) (item : LeafItem) (e : Int),
      initRes newPid = .ok () → pinRes newPid = .error e →
      edubtm_SplitLeafRun (.ok newPid) initRes pinRes half fpage high item
        = (fpage, .error e)) := by
  refine ⟨fun _ _ _ _ _ _ _ => rfl, ?_, ?_, fun _ _ _ _ _ _ _ => rfl, ?_, ?_⟩
  · intro newPid initRes pinRes half fpage high item e h
    simp only [edubtm_SplitInternalRun, h]
  · intro newPid initRes pinRes half fpage high item e h1 h2
    simp only [edubtm_SplitInternalRun, h1, h2]
  · intro newPid initRes pinRes half fpage high item e h
    simp only [edubtm_SplitLeafRun, h]
  · intro newPid initRes pinRes half fpage high item e h1 h2
    simp only [edubtm_SplitLeafRun, h1, h2]

/-- Witness for C6: an allocation failure on the internal splitter and an init
failure on the leaf splitter, both with concrete pages. -/
theorem C6_error_passthrough_witness :
    (edubtm_SplitInternalRun (.error (-8)) (fun _ => .ok ()) (fun _ => .ok ())
        20 pageI 3 itemI = (pageI, .error (-8))) ∧
    ((fun _ => (Except.error (-9) : Except Int Unit)) 9 = Except.error (-9) ∧
      edubtm_SplitLeafRun (.ok 9) (fun _ => .error (-9)) (fun _ => .ok ())
        20 pageL 3 itemL = (pageL, .error (-9))) :=
  ⟨C6_error_passthrough.1 (fun _ => .ok ()) (fun _ => .ok ()) 20 pageI 3 itemI (-8),
   ⟨rfl, C6_error_passthrough.2.2.2.2.1 9 (fun _ => .error (-9)) (fun _ => .ok ())
      20 pageL 3 itemL (-9) rfl⟩⟩

/-- C7: the source page and the newly allocated sibling are the only pages a
split mutates; every other page of the store, including the old next leaf of a
leaf split, is unchanged (the C code writes only through the `fpage` and
`npage` pointers; the declared `mpage` pointer for the next leaf is unused). -/
theorem C7_frame :
    (∀ (half : Nat) (newPid : Int) (store : Int → BtreeInternal) (fpid : Int)
        (high : Nat) (item : InternalItem) (p : Int), p ≠ fpid → p ≠ newPid →
      (storeSplitInternal half newPid store fpid high item).1 p = store p) ∧
    (∀ (half : Nat) (newPid : Int) (store : Int → BtreeLeaf) (fpid : Int)
        (high : Nat) (item : LeafItem) (p : Int), p ≠ fpid → p ≠ newPid →
      (storeSplitLeaf half newPid store fpid high item).1 p = store p) := by
  constructor
  · intro half newPid store fpid high item p h1 h2
    simp only [storeSplitInternal, if_neg h1, if_neg h2]
  · intro half newPid store fpid high item p h1 h2
    simp only [storeSplitLeaf, if_neg h1, if_neg h2]

/-- Witness for C7: page 5 is untouched by concrete internal and leaf splits
of page 1 with sibling 9. -/
theorem C7_frame_witness :
    ((5 : Int) ≠ 1) ∧ ((5 : Int) ≠ 9) ∧
    (storeSplitInternal 20 9 storeI 1 3 itemI).1 5 = storeI 5 ∧
    (storeSplitLeaf 20 9 storeL 1 3 itemL).1 5 = storeL 5 :=
  ⟨by decide, by decide,
   C7_frame.1 20 9 storeI 1 3 itemI 5 (by decide) (by decide),
   C7_frame.2 20 9 storeL 1 3 itemL 5 (by decide) (by decide)⟩

/-- C8: the claim asserts every internal entry advances offsets by
`sizeof(ShortPageID) + sizeof(Two) + ALIGNED_LENGTH(klen)`.  The code aligns
only in one of six branches (line 126, the new item stored into the source
page); pre-existing entries (lines 120, 133, 148, 161) and the new item stored
into the sibling (line 154) advance by the raw, unaligned `klen`.  Concretely,
with 5-byte keys: the source-page slots of one split advance by 11 = 4+2+5
instead of 14 = 4+2+ALIGNED_LENGTH(5) for the copied entries, while the free
offset shows the inserted item itself consumed the aligned 14 (36 = 22 + 14);
and in a split where the item lands in the sibling, the sibling free offset
advances by the unaligned 11 for the item (22 = 11 + 11). -/
theorem C8_entry_advance_eval :
    (edubtm_SplitInternal 1000 77 pageK5 3 itemK5).fpage.slot = [0, 11, 22] ∧
    (edubtm_SplitInternal 1000 77 pageK5 3 itemK5).fpage.hdr.free = 36 ∧
    (edubtm_SplitInternal 10 77 pageK5 3 itemK5).npage.slot = [0, 11] ∧
    (edubtm_SplitInternal 10 77 pageK5 3 itemK5).npage.hdr.free = 22 ∧
    (edubtm_SplitInternal 10 77 pageK5 3 itemK5).npage.entries.getD 1 default = itemK5 ∧
    ALIGNED_LENGTH 5 = 8 ∧
    SHORTPAGEID_SIZE + TWO_SIZE + ALIGNED_LENGTH 5 = 14 ∧
    ((11 : Nat) ≠ 14) := by
  refine ⟨by decide, by decide, by decide, by decide, by decide, by decide, by decide,
    by decide⟩

/-- C9: the partition of the merged sequence between source and sibling is a
pure function of (original entries, new item, high, threshold): two splitter
invocations on pages with identical entry sequences produce identical entry
partitions whatever the page ids, other header fields or slot arrays of the
page objects and whatever sibling pids are allocated. -/
theorem C9_partition_deterministic :
    (∀ (half high : Nat) (item : InternalItem) (p1 p2 : BtreeInternal) (pid1 pid2 : Int),
      p1.entries = p2.entries → p1.hdr.nSlots = p1.entries.length →
      p2.hdr.nSlots = p2.entries.length →
      (edubtm_SplitInternal half pid1 p1 high item).fpage.entries
        = (edubtm_SplitInternal half pid2 p2 high item).fpage.entries ∧
      (edubtm_SplitInternal half pid1 p1 high item).npage.entries
        = (edubtm_SplitInternal half pid2 p2 high item).npage.entries) ∧
    (∀ (half high : Nat) (item : LeafItem) (p1 p2 : BtreeLeaf) (pid1 pid2 : Int),
      p1.entries = p2.entries → p1.hdr.nSlots = p1.entries.length →
      p2.hdr.nSlots = p2.entries.length →
      (edubtm_SplitLeaf half pid1 p1 high item).fpage.entries
        = (edubtm_SplitLeaf half pid2 p2 high item).fpage.entries ∧
      (edubtm_SplitLeaf half pid1 p1 high item).npage.entries
        = (edubtm_SplitLeaf half pid2 p2 high item).npage.entries) := by
  constructor
  · intro half high item p1 p2 pid1 pid2 hE h1 h2
    have hn : p1.hdr.nSlots = p2.hdr.nSlots := by rw [h1, h2, hE]
    constructor
    · rw [edubtm_SplitInternal_fpage_entries, edubtm_SplitInternal_fpage_entries, hE, hn]
    · rw [edubtm_SplitInternal_npage_entries, edubtm_SplitInternal_npage_entries, hE, hn]
  · intro half high item p1 p2 pid1 pid2 hE h1 h2
    have hn : p1.hdr.nSlots = p2.hdr.nSlots := by rw [h1, h2, hE]
    constructor
    · rw [edubtm_SplitLeaf_fpage_entries, edubtm_SplitLeaf_fpage_entries, hE, hn]
    · rw [edubtm_SplitLeaf_npage_entries, edubtm_SplitLeaf_npage_entries, hE, hn]

/-- Witness for C9: `pageI` against a page with the same entries but different
pid, p0, free offset and slot array, and different sibling pids. -/
theorem C9_partition_deterministic_witness :
    (pageI.entries = (⟨⟨3, 55, 4, 123⟩, [], pageI.entries⟩ : BtreeInternal).entries ∧
      (edubtm_SplitInternal 20 77 pageI 3 itemI).fpage.entries
        = (edubtm_SplitInternal 20 88 ⟨⟨3, 55, 4, 123⟩, [], pageI.entries⟩ 3 itemI).fpage.entries ∧
      (edubtm_SplitInternal 20 77 pageI 3 itemI).npage.entries
        = (edubtm_SplitInternal 20 88 ⟨⟨3, 55, 4, 123⟩, [], pageI.entries⟩ 3 itemI).npage.entries) ∧
    (pageL.entries = (⟨⟨7, 4, 9, 8, 6⟩, [], pageL.entries⟩ : BtreeLeaf).entries ∧
      (edubtm_SplitLeaf 20 9 pageL 3 itemL).fpage.entries
        = (edubtm_SplitLeaf 20 11 ⟨⟨7, 4, 9, 8, 6⟩, [], pageL.entries⟩ 3 itemL).fpage.entries ∧
      (edubtm_SplitLeaf 20 9 pageL 3 itemL).npage.entries
        = (edubtm_SplitLeaf 20 11 ⟨⟨7, 4, 9, 8, 6⟩, [], pageL.entries⟩ 3 itemL).npage.entries) := by
  refine ⟨⟨rfl, ?_⟩, ⟨rfl, ?_⟩⟩
  · exact C9_partition_deterministic.1 20 3 itemI pageI ⟨⟨3, 55, 4, 123⟩, [], pageI.entries⟩
      77 88 rfl (by decide) (by decide)
  · exact C9_partition_deterministic.2 20 3 itemL pageL ⟨⟨7, 4, 9, 8, 6⟩, [], pageL.entries⟩
      9 11 rfl (by decide) (by decide)

/-- C10: if after some non-final loop iteration `m` the accumulated occupied
size strictly exceeds the half-fill threshold, then at least one entry is
placed in the sibling, so the sibling's slot 0 and its entry — read at lines
171-177 (internal) and 333-336 (leaf) to form the leftmost-child pointer and
the up-entry — are initialized, for both splitters. -/
theorem C10_sibling_slot0_initialized :
    (∀ (half : Nat) (newPid : Int) (fpage : BtreeInternal) (high : Nat)
        (item : InternalItem) (m : Nat),
      m + 1 < fpage.hdr.nSlots + 1 →
      half < (iStateAfter half fpage.entries item high (m + 1)).sum →
      (edubtm_SplitInternal half newPid fpage high item).npage.entries ≠ [] ∧
      (edubtm_SplitInternal half newPid fpage high item).npage.slot ≠ []) ∧
    (∀ (half : Nat) (newPid : Int) (fpage : BtreeLeaf) (high : Nat)
        (item : LeafItem) (m : Nat),
      m + 1 < fpage.hdr.nSlots + 1 →
      half < (lStateAfter half fpage.entries item high (m + 1)).sum →
      (edubtm_SplitLeaf half newPid fpage high item).npage.entries ≠ [] ∧
      (edubtm_SplitLeaf half newPid fpage high item).npage.slot ≠ []) := by
  constructor
  · intro half newPid fpage high item m hm hsum
    have hne : (edubtm_SplitInternal half newPid fpage high item).npage.entries ≠ [] := by
      rw [edubtm_SplitInternal_npage_entries]
      unfold iStateAfter
      have hsplit : fpage.hdr.nSlots + 1 = (m + 1) + (fpage.hdr.nSlots - m) := by omega
      rw [hsplit, splitLoop_add]
      obtain ⟨f, hf⟩ : ∃ f, fpage.hdr.nSlots - m = f + 1 := ⟨fpage.hdr.nSlots - m - 1, by omega⟩
      rw [hf]
      have h2 := (splitLoop_of_half_le half (iPickF fpage.entries item high)
        (iPickN fpage.entries item high) (f + 1) (0 + (m + 1))
        (splitLoop half (iPickF fpage.entries item high) (iPickN fpage.entries item high)
          0 (m + 1) (splitStart _)) (le_of_lt hsum)).2
      rw [h2]
      apply List.ne_nil_of_length_pos
      simp [idxFrom_length]
    refine ⟨hne, ?_⟩
    have hlen := splitLoop_nSlot_length half (iPickF fpage.entries item high)
      (iPickN fpage.entries item high) (fpage.hdr.nSlots + 1) 0 (splitStart _) rfl
    rw [edubtm_SplitInternal_npage_entries] at hne
    rw [edubtm_SplitInternal_npage_slot]
    unfold iStateAfter at hne ⊢
    apply List.ne_nil_of_length_pos
    rw [hlen]
    exact List.length_pos.mpr hne
  · intro half newPid fpage high item m hm hsum
    have hne : (edubtm_SplitLeaf half newPid fpage high item).npage.entries ≠ [] := by
      rw [edubtm_SplitLeaf_npage_entries]
      unfold lStateAfter
      have hsplit : fpage.hdr.nSlots + 1 = (m + 1) + (fpage.hdr.nSlots - m) := by omega
      rw [hsplit, splitLoop_add]
      obtain ⟨f, hf⟩ : ∃ f, fpage.hdr.nSlots - m = f + 1 := ⟨fpage.hdr.nSlots - m - 1, by omega⟩
      rw [hf]
      have h2 := (splitLoop_of_half_le half (lPick fpage.entries item high)
        (lPick fpage.entries item high) (f + 1) (0 + (m + 1))
        (splitLoop half (lPick fpage.entries item high) (lPick fpage.entries item high)
          0 (m + 1) (splitStart _)) (le_of_lt hsum)).2
      rw [h2]
      apply List.ne_nil_of_length_pos
      simp [idxFrom_length]
    refine ⟨hne, ?_⟩
    have hlen := splitLoop_nSlot_length half (lPick fpage.entries item high)
      (lPick fpage.entries item high) (fpage.hdr.nSlots + 1) 0 (splitStart _) rfl
    rw [edubtm_SplitLeaf_npage_entries] at hne
    rw [edubtm_SplitLeaf_npage_slot]
    unfold lStateAfter at hne ⊢
    apply List.ne_nil_of_length_pos
    rw [hlen]
    exact List.length_pos.mpr hne

/-- Witness for C10: in both sample splits the occupied size after iteration 1
(24 internal, 36 leaf) already exceeds the threshold 20 and iteration 1 is not
final, so the siblings are nonempty. -/
theorem C10_sibling_slot0_initialized_witness :
    (1 + 1 < pageI.hdr.nSlots + 1 ∧ 20 < (iStateAfter 20 pageI.entries itemI 3 (1 + 1)).sum ∧
      (edubtm_SplitInternal 20 77 pageI 3 itemI).npage.entries ≠ []) ∧
    (1 + 1 < pageL.hdr.nSlots + 1 ∧ 20 < (lStateAfter 20 pageL.entries itemL 3 (1 + 1)).sum ∧
      (edubtm_SplitLeaf 20 9 pageL 3 itemL).npage.entries ≠ []) :=
  ⟨⟨by decide, by decide,
    (C10_sibling_slot0_initialized.1 20 77 pageI 3 itemI 1 (by decide) (by decide)).1⟩,
   ⟨by decide, by decide,
    (C10_sibling_slot0_initialized.2 20 9 pageL 3 itemL 1 (by decide) (by decide)).1⟩⟩

end EduBtM
